import Mathlib

/-!
Verification of the ZX Spectrum machine model (`src/zx.h`, namespace `zx`,
class template `spectrum<D>`).

The C++ code is shallowly embedded: machine integers become `Nat` with
explicit `% 2^w` where a narrowing cast or unsigned wrap-around matters
(`least_u8` stores are `% 256`, the 64-bit `uint_fast32_t` tick arithmetic
wraps at `2 ^ 64`, the journal cells are `uint_least64_t`).  The mutable
`spectrum` object becomes a record `spectrum`; every member function
becomes a state-passing function with the same name.  The Z80 instruction
decoder (`z80::z80_cpu`, an external collaborator from a separate
repository) is kept abstract: `on_step` and `run` take the decoder's
`step` and `handle_active_int` actions as function parameters, and the
decoder's plain 3-tick memory-write cycle is modelled from the spec.
-/

namespace zx

/-- Events mask bit: `machine_stopped` (`zx.h`). -/
def machine_stopped : Nat := 1
/-- Events mask bit: `end_of_frame` (`zx.h`). -/
def end_of_frame : Nat := 2
/-- Events mask bit: `ticks_limit_hit` (`zx.h`). -/
def ticks_limit_hit : Nat := 4
/-- Events mask bit: `fetches_limit_hit` (`zx.h`). -/
def fetches_limit_hit : Nat := 8
/-- Events mask bit: `breakpoint_hit` (`zx.h`). -/
def breakpoint_hit : Nat := 16

/-- Memory mark bit 0: breakpoint (`zx.h`). -/
def breakpoint_mark : Nat := 1
/-- Memory mark bit 7: visited instruction (`zx.h`). -/
def visited_instr_mark : Nat := 128

/-- The two supported machine models (`enum class spectrum_model`). -/
inductive spectrum_model where
  | spectrum_48
  | spectrum_128
deriving DecidableEq

/-- Memory pages, numbered as in `enum memory_image::page`:
rom0, ram5, ram2, ram0, rom1, ram1, ram3, ram4, ram6, ram7. -/
def rom0 : Nat := 0
def ram5 : Nat := 1
def ram2 : Nat := 2
def ram0 : Nat := 3
def rom1 : Nat := 4
def ram1 : Nat := 5
def ram3 : Nat := 6
def ram4 : Nat := 7
def ram6 : Nat := 8
def ram7 : Nat := 9

/-- `memory_image::page_size` = 0x4000. -/
def page_size : Nat := 0x4000

/-- `memory_image::get_ram_page(n)`: the lookup table
`{ram0, ram1, ram2, ram3, ram4, ram5, ram6, ram7}` indexed by `n`. -/
def get_ram_page (n : Nat) : Nat :=
  [ram0, ram1, ram2, ram3, ram4, ram5, ram6, ram7].getD n 0

/-- `memory_image::get_rom_page(n)`: the lookup table `{rom0, rom1}`. -/
def get_rom_page (n : Nat) : Nat :=
  [rom0, rom1].getD n 0

/-- `memory_image::get_offset(addr, rom, ram)`: address resolution into the
flat ten-page byte image. -/
def get_offset (addr rom ram : Nat) : Nat :=
  if addr < 0x4000 then rom * page_size + addr
  else if addr < 0xc000 then addr
  else ram * page_size + addr % page_size

/-- The flat byte image of `memory_image`, as a function from offsets to
byte values. -/
structure memory_image where
  bytes : Nat → Nat

/-- `memory_image::read(addr, rom, ram)`. -/
def memory_image.read (m : memory_image) (addr rom ram : Nat) : Nat :=
  m.bytes (get_offset addr rom ram)

/-- `memory_image::write(addr, n, rom, ram)`: the stored cell is a
`least_u8`, hence the `% 256` of the narrowing cast. -/
def memory_image.write (m : memory_image) (addr n rom ram : Nat) : memory_image :=
  ⟨fun i => if i = get_offset addr rom ram then n % 256 else m.bytes i⟩

/-- The pseudo-random fill of `memory_image::reset()`: 64-bit
`uint_fast32_t` state, stepped by `rnd = (rnd * 0x74392cef) ^ (rnd >> 16)`,
starting from `0xde347a01`; cell `i` stores the low byte of state `i`. -/
def reset_state : Nat → Nat
  | 0 => 0xde347a01
  | i + 1 => ((reset_state i * 0x74392cef) ^^^ (reset_state i >>> 16)) % 2 ^ 64

/-- The byte stored at offset `i` by `memory_image::reset()`. -/
def reset_byte (i : Nat) : Nat := reset_state i % 256

/-- The full state of the machine object `spectrum<D>` (its own data
members plus the program counter held by the Z80 base class, which the
machine reads through `get_pc`). -/
structure spectrum where
  model : spectrum_model
  events : Nat
  ticks_since_int : Nat
  ticks_to_stop : Nat
  fetches_to_stop : Nat
  addr_bus_value : Nat
  border_colour : Nat
  int_suppressed : Bool
  int_after_ei_allowed : Bool
  trace_enabled : Bool
  rom_page : Nat
  ram_page : Nat
  ignore_7ffd_port_writes : Bool
  shadow_screen : Bool
  screen_chunks : Nat → Nat → Nat
  port_writes : List Nat
  memory_marks : Nat → Nat
  mem : memory_image
  frame_counter : Nat
  render_tick : Nat
  latched_border_colour : Nat
  latched_pixel_pattern : Nat
  latched_colour_attrs : Nat
  latched_pixel_pattern2 : Nat
  latched_colour_attrs2 : Nat
  flash_mask : Nat
  pc : Nat

/-- `stop()`: latch the `machine_stopped` event bit. -/
def stop (s : spectrum) : spectrum :=
  { s with events := s.events ||| machine_stopped }

/-- `on_tick(t)`: advance `ticks_since_int` and handle the optional
tick-budget deadline. -/
def on_tick (t : Nat) (s : spectrum) : spectrum :=
  let s' := { s with ticks_since_int := s.ticks_since_int + t }
  if s'.ticks_to_stop ≠ 0 then
    if t < s'.ticks_to_stop then
      { s' with ticks_to_stop := s'.ticks_to_stop - t }
    else
      { s' with ticks_to_stop := 0, events := s'.events ||| ticks_limit_hit }
  else s'

/-- `get_cont_base()`: documented contention base plus one, per model. -/
def get_cont_base (m : spectrum_model) : Nat :=
  match m with
  | .spectrum_48 => 14335 + 1
  | .spectrum_128 => 14361 + 1

/-- `max_ticks_per_frame` = 70908. -/
def max_ticks_per_frame : Nat := 70908

/-- `get_ticks_per_frame()` per model. -/
def get_ticks_per_frame (m : spectrum_model) : Nat :=
  match m with
  | .spectrum_48 => 69888
  | .spectrum_128 => 70908

/-- `get_ticks_per_line()` per model. -/
def get_ticks_per_line (m : spectrum_model) : Nat :=
  match m with
  | .spectrum_48 => 224
  | .spectrum_128 => 228

/-- `ticks_per_active_int` = 32. -/
def ticks_per_active_int : Nat := 32

/-- Screen geometry constants from `zx.h`. -/
def screen_width : Nat := 256
def screen_height : Nat := 192
def border_width : Nat := 48
def top_border_height : Nat := 48
def bottom_border_height : Nat := 40
def frame_width : Nat := border_width + screen_width + border_width
def frame_height : Nat := top_border_height + screen_height + bottom_border_height
def pixels_per_frame_chunk : Nat := 8
def brightness_bit : Nat := 3
def brightness_mask : Nat := 8
def red_mask : Nat := 2
def green_mask : Nat := 4
def blue_mask : Nat := 1
def top_hidden_lines : Nat := 64 - top_border_height

/-- `handle_contention()`: the ULA stall applied to a contended access at
the current `ticks_since_int`. -/
def handle_contention (s : spectrum) : spectrum :=
  let cont_base := get_cont_base s.model
  let ticks_per_line := get_ticks_per_line s.model
  if s.ticks_since_int < cont_base then s
  else if cont_base + screen_height * ticks_per_line ≤ s.ticks_since_int then s
  else
    let ticks_since_new_line := (s.ticks_since_int - cont_base) % ticks_per_line
    if screen_width / 2 ≤ ticks_since_new_line then s
    else
      let ticks_since_new_ula_cycle := ticks_since_new_line % 8
      let delay := if ticks_since_new_ula_cycle = 7 then 0
                   else 6 - ticks_since_new_ula_cycle
      on_tick delay s

/-- `handle_memory_contention(addr)`: contention applies only in
`[0x4000, 0x8000)`. -/
def handle_memory_contention (addr : Nat) (s : spectrum) : spectrum :=
  if 0x4000 ≤ addr ∧ addr < 0x8000 then handle_contention s else s

/-- `on_read(addr)`: read through the current page selection. -/
def on_read (addr : Nat) (s : spectrum) : Nat :=
  s.mem.read addr s.rom_page s.ram_page

/-- `on_write(addr, n)`: writes below 0x4000 (ROM) are ignored. -/
def on_write (addr n : Nat) (s : spectrum) : spectrum :=
  if 0x4000 ≤ addr then
    { s with mem := s.mem.write addr n s.rom_page s.ram_page }
  else s

/-- `mark_addr(addr, marks)`: OR the mark bits into the byte for the
masked address (the store is a `least_u8` cast, hence `% 256`). -/
def mark_addr (addr marks : Nat) (s : spectrum) : spectrum :=
  let a := addr % 65536
  { s with memory_marks :=
      fun a' => if a' = a then (s.memory_marks a ||| marks) % 256
                else s.memory_marks a' }

/-- `is_marked_addr(addr, marks)`. -/
def is_marked_addr (addr marks : Nat) (s : spectrum) : Prop :=
  s.memory_marks (addr % 65536) &&& marks ≠ 0

/-- `handle_port_contention(addr)`: the four I/O contention patterns. -/
def handle_port_contention (addr : Nat) (s : spectrum) : spectrum :=
  if addr < 0x4000 ∨ 0x8000 ≤ addr then
    if addr % 2 = 0 then
      on_tick 3 (handle_contention (on_tick 1 s))
    else
      on_tick 4 s
  else
    if addr % 2 = 0 then
      on_tick 3 (handle_contention (on_tick 1 (handle_contention s)))
    else
      on_tick 1 (handle_contention (on_tick 1 (handle_contention
        (on_tick 1 (handle_contention (on_tick 1 (handle_contention s)))))))

/-- `make16(h, l)` from the z80 utility header: big-endian byte pair. -/
def make16 (h l : Nat) : Nat := (h <<< 8) ||| l

/-- `get_pixel_pattern_offset(frame_line, pixel_in_line)`. -/
def get_pixel_pattern_offset (frame_line pixel_in_line : Nat) : Nat :=
  let line := frame_line - 64
  0x800 * (line / 64) + 0x20 * (line % 64 / 8) + 0x100 * (line % 64 % 8) +
    (pixel_in_line - border_width) / 8

/-- `get_colour_attrs_offset(frame_line, pixel_in_line)`. -/
def get_colour_attrs_offset (frame_line pixel_in_line : Nat) : Nat :=
  0x20 * ((frame_line - 64) / 8) + (pixel_in_line - border_width) / 8

/-- The `frame_tick` of the render loop:
`render_tick + border_width / 2 - 8 / 2`. -/
def frame_tick_of (rt : Nat) : Nat := rt + border_width / 2 - 8 / 2

/-- The `frame_line` of the render loop. -/
def frame_line_of (m : spectrum_model) (rt : Nat) : Nat :=
  frame_tick_of rt / get_ticks_per_line m

/-- The `pixel_in_line` of the render loop. -/
def pixel_in_line_of (m : spectrum_model) (rt : Nat) : Nat :=
  frame_tick_of rt % get_ticks_per_line m * 2

/-- The latching block of the render loop body: read the pixel-pattern and
colour-attribute byte pairs for the cell 8 pixels ahead of the beam from
the selected screen page. -/
def do_latch (fl pil : Nat) (s : spectrum) : spectrum :=
  let screen_page := if s.shadow_screen then ram7 else ram5
  let pattern_addr := 0xc000 + get_pixel_pattern_offset fl (pil + 8)
  let pattern_hi := s.mem.read (pattern_addr + 0) rom0 screen_page
  let pattern_lo := s.mem.read (pattern_addr + 1) rom0 screen_page
  let attr_addr := 0xc000 + 0x1800 + get_colour_attrs_offset fl (pil + 8)
  let attr_hi := s.mem.read (attr_addr + 0) rom0 screen_page
  let attr_lo := s.mem.read (attr_addr + 1) rom0 screen_page
  { s with latched_pixel_pattern := make16 pattern_hi pattern_lo,
           latched_colour_attrs := make16 attr_hi attr_lo }

/-- The screen-area block of the render loop body: emit the two pixels of
the current tick from the latched pattern and attribute words. -/
def render_screen_pixels (fl pil : Nat) (s : spectrum) : spectrum :=
  let chunk_index := pil / pixels_per_frame_chunk
  let pixel_in_chunk := pil % pixels_per_frame_chunk
  let screen_line := fl - top_hidden_lines
  let pixel_in_cycle := (pil - border_width) % 16
  let s := if pixel_in_cycle = 0 then
             { s with latched_pixel_pattern2 := s.latched_pixel_pattern,
                      latched_colour_attrs2 := s.latched_colour_attrs }
           else s
  let attr := s.latched_colour_attrs2 >>> ((15 - pixel_in_cycle) / 8 * 8)
  let brightness := attr >>> (6 - brightness_bit) &&& brightness_mask
  let ink_colour := (attr &&& 0x7) ||| brightness
  let paper_colour := (attr >>> 3 &&& 0x7) ||| brightness
  let pattern := if attr &&& 0x80 ≠ 0 then s.latched_pixel_pattern2 ^^^ s.flash_mask
                 else s.latched_pixel_pattern2
  let pixels_value :=
    ((if pattern &&& ((1 <<< 15) >>> pixel_in_cycle) ≠ 0 then ink_colour <<< 28
      else paper_colour <<< 28) |||
     (if pattern &&& ((1 <<< 14) >>> pixel_in_cycle) ≠ 0 then ink_colour <<< 24
      else paper_colour <<< 24)) >>> (pixel_in_chunk * 4)
  let pixels_mask := 0xff000000 >>> (pixel_in_chunk * 4)
  let chunk := (s.screen_chunks screen_line chunk_index &&&
                (0xffffffff ^^^ pixels_mask)) ||| pixels_value
  { s with
      screen_chunks := fun i j =>
        if i = screen_line ∧ j = chunk_index then chunk else s.screen_chunks i j,
      render_tick := s.render_tick + 1 }

/-- The border-area block of the render loop body: refresh the latched
border colour every 4 ticks and emit two border pixels. -/
def render_border_pixels (fl pil : Nat) (s : spectrum) : spectrum :=
  let s := if s.render_tick % 4 = 0 then
             { s with latched_border_colour := s.border_colour }
           else s
  let chunk_index := pil / pixels_per_frame_chunk
  let pixel_in_chunk := pil % pixels_per_frame_chunk
  let screen_line := fl - top_hidden_lines
  let pixels_value := (0x11000000 * s.latched_border_colour) >>> (pixel_in_chunk * 4)
  let pixels_mask := 0xff000000 >>> (pixel_in_chunk * 4)
  let chunk := (s.screen_chunks screen_line chunk_index &&&
                (0xffffffff ^^^ pixels_mask)) ||| pixels_value
  { s with
      screen_chunks := fun i j =>
        if i = screen_line ∧ j = chunk_index then chunk else s.screen_chunks i j,
      render_tick := s.render_tick + 1 }

/-- One iteration of the `while` loop of `render_screen_to_tick`. -/
def render_step (s : spectrum) : spectrum :=
  let fl := frame_line_of s.model s.render_tick
  let pil := pixel_in_line_of s.model s.render_tick
  let s1 :=
    if 64 ≤ fl ∧ fl < 64 + screen_height ∧
       border_width - 8 ≤ pil ∧ pil < border_width + screen_width - 8 ∧
       (s.render_tick - fl * get_ticks_per_line s.model) % 8 = 0 then
      do_latch fl pil s
    else s
  if 64 ≤ fl ∧ fl < 64 + screen_height ∧
     border_width ≤ pil ∧ pil < border_width + screen_width then
    render_screen_pixels fl pil s1
  else if top_hidden_lines ≤ fl ∧ fl < 64 + screen_height + bottom_border_height ∧
          pil < frame_width then
    render_border_pixels fl pil s1
  else
    { s1 with render_tick := s1.render_tick + 1 }

/-- The `while(render_tick < end_tick)` loop of `render_screen_to_tick`,
indexed by a step budget.  Each `render_step` advances `render_tick` by
exactly one (theorem `render_step_render_tick` below), so a budget of
`end_tick - render_tick` replays the C++ loop to completion (theorem
`render_to_render_tick` below shows the loop's exit condition holds). -/
def render_loop : Nat → Nat → spectrum → spectrum
  | 0, _, s => s
  | fuel + 1, end_tick, s =>
    if s.render_tick < end_tick then render_loop fuel end_tick (render_step s)
    else s

/-- `render_screen_to_tick(end_tick)`: advance the beam one tick at a time
until `render_tick` reaches `end_tick`. -/
def render_screen_to_tick (end_tick : Nat) (s : spectrum) : spectrum :=
  render_loop (end_tick - s.render_tick) end_tick s

/-- Modelled from the spec: the Z80 decoder's plain memory-write cycle
(`base::on_write_cycle`, supplied by the out-of-scope decoder component):
a 3-tick write that stores the byte through the machine's `on_write`. -/
def base_on_write_cycle (addr n : Nat) (s : spectrum) : spectrum :=
  on_tick 3 (on_write addr n s)

/-- `on_write_cycle(addr, n)`: render up to the next tick, then contention,
then the decoder's 3-tick write. -/
def on_write_cycle (addr n : Nat) (s : spectrum) : spectrum :=
  let s := render_screen_to_tick (s.ticks_since_int + 1) s
  let s := handle_memory_contention addr s
  base_on_write_cycle addr n s

/-- `max_num_port_writes`: the journal capacity,
`div_ceil(max_ticks_per_frame, ticks_per_shortest_out_instr)`. -/
def ticks_per_shortest_out_instr : Nat := 11
def max_num_port_writes : Nat :=
  (max_ticks_per_frame + ticks_per_shortest_out_instr - 1) /
    ticks_per_shortest_out_instr

/-- The packed `uint_least64_t` journal cell:
`addr << 0 | n << 16 | t << 32`. -/
def pw_encode (addr n t : Nat) : Nat :=
  (addr ||| (n <<< 16) ||| (t <<< 32)) % 2 ^ 64

/-- The border block of `on_output_cycle`: on a port with low byte 0xFE,
render up to the next tick and then set the border colour. -/
def oc_border (addr n : Nat) (s : spectrum) : spectrum :=
  if addr &&& 0xff = 0xfe then
    { render_screen_to_tick (s.ticks_since_int + 1) s with border_colour := n &&& 0x7 }
  else s

/-- The 0x7FFD block of `on_output_cycle`: on the 128K model, for an
address with bits 1 and 15 clear and the paging lock clear, update the
paging registers and the lock. -/
def oc_paging (addr n : Nat) (s : spectrum) : spectrum :=
  if s.model = spectrum_model.spectrum_128 ∧ addr &&& 0x8002 = 0 ∧
     ¬s.ignore_7ffd_port_writes then
    { s with ram_page := get_ram_page (n &&& 7),
             rom_page := get_rom_page (n >>> 4 &&& 1),
             ignore_7ffd_port_writes := n &&& 0x20 ≠ 0,
             shadow_screen := n &&& 8 ≠ 0 }
  else s

/-- The journal block of `on_output_cycle`: append the packed entry if
there is capacity left, else drop it. -/
def oc_journal (addr n t : Nat) (s : spectrum) : spectrum :=
  if s.port_writes.length < max_num_port_writes then
    { s with port_writes := s.port_writes ++ [pw_encode addr n t] }
  else s

/-- `on_output_cycle(addr, n)`: border/paging handling, journal append
(timestamped with the tick at entry), then port contention.  The
`on_output` host hook and the trace output are external effects with no
machine-state component. -/
def on_output_cycle (addr n : Nat) (s : spectrum) : spectrum :=
  handle_port_contention addr
    (oc_journal addr n s.ticks_since_int (oc_paging addr n (oc_border addr n s)))

/-- `start_new_frame()`: normalize the tick counter, reset the beam,
advance the frame counter (toggling the flash mask every 16 frames) and
clear the port-write journal. -/
def start_new_frame (s : spectrum) : spectrum :=
  let s := { s with ticks_since_int := s.ticks_since_int % get_ticks_per_frame s.model,
                    render_tick := 0,
                    frame_counter := s.frame_counter + 1 }
  let s := if s.frame_counter % 16 = 0 then
             { s with flash_mask := s.flash_mask ^^^ 0xffff }
           else s
  { s with port_writes := [] }

/-- `on_step()`: the machine-state part before handing over to the
decoder: mark the current PC as a visited instruction (the trace output is
an external file effect with no machine-state component). -/
def on_step_pre (s : spectrum) : spectrum :=
  mark_addr s.pc visited_instr_mark s

/-- `on_step()`, with the decoder's `base::on_step` abstracted as `f`. -/
def on_step (f : spectrum → spectrum) (s : spectrum) : spectrum :=
  f (on_step_pre s)

/-- The active-~INT guard of the `run()` loop: `previous_tick` is computed
as `ticks_since_int - 1` in 64-bit unsigned arithmetic, so value 0 wraps
to `2^64 - 1`. -/
def active_int_due (s : spectrum) : Prop :=
  ¬s.int_suppressed ∧
    (s.ticks_since_int + (2 ^ 64 - 1)) % 2 ^ 64 < ticks_per_active_int

instance (s : spectrum) : Decidable (active_int_due s) := by
  unfold active_int_due
  infer_instance

/-- The body of the `run()` loop, with the decoder's `handle_active_int`
abstracted as `g` and its `step` as `f`. -/
def loop_body (f g : spectrum → spectrum) (s : spectrum) : spectrum :=
  on_step f (if active_int_due s then g s else s)

/-- The `run()` loop, fuel-indexed (the C++ loop runs until an event
latches or the frame ends; for an arbitrary abstract decoder this need not
terminate, so the embedding is indexed by a step budget). -/
def run_loop (f g : spectrum → spectrum) : Nat → spectrum → spectrum
  | 0, s => s
  | fuel + 1, s =>
    if s.events = 0 ∧ s.ticks_since_int < get_ticks_per_frame s.model then
      run_loop f g fuel (loop_body f g s)
    else s

/-- The entry part of `run()`: normalize the tick counter into the frame
and reset the events latch. -/
def run_entry (s : spectrum) : spectrum :=
  let s := if get_ticks_per_frame s.model ≤ s.ticks_since_int then
             start_new_frame s
           else s
  { s with events := 0 }

/-- `run()`: entry normalization, the instruction loop, the end-of-frame
event.  The returned events mask is the `events` field of the result. -/
def run (f g : spectrum → spectrum) (fuel : Nat) (s : spectrum) : spectrum :=
  let s := run_loop f g fuel (run_entry s)
  if get_ticks_per_frame s.model ≤ s.ticks_since_int then
    { s with events := s.events ||| end_of_frame }
  else s

/-- `translate_colour(c)`: route each colour bit of the 4-bit pixel to the
low bit of its byte lane, then scale by the brightness coefficient; the
result is cast to the 32-bit `pixel_type`. -/
def translate_colour (c : Nat) : Nat :=
  (((c &&& red_mask) <<< 15 ||| (c &&& green_mask) <<< 6 ||| (c &&& blue_mask)) *
    (if c &&& brightness_mask ≠ 0 then 0xff else 0xcc)) % 2 ^ 32

/-- `get_frame_pixels(buffer)`: the pixel written at flat index `p` of the
output buffer, as a function of the chunk buffer only (row-major chunks,
leftmost pixel in the most significant nibble). -/
def get_frame_pixels (s : spectrum) (p : Nat) : Nat :=
  let line := p / frame_width
  let x := p % frame_width
  let chunk := s.screen_chunks line (x / pixels_per_frame_chunk)
  translate_colour (chunk >>> ((7 - x % pixels_per_frame_chunk) * 4) &&& 0xf)

/-- The contention-delay table exactly as the spec's claim words it
(spec §4.2), for comparison with `handle_memory_contention`. -/
def claim_cont_delay (m : spectrum_model) (A t : Nat) : Nat :=
  if ¬(0x4000 ≤ A ∧ A < 0x8000) then 0
  else
    let cont_base := match m with
      | .spectrum_48 => 14336
      | .spectrum_128 => 14362
    let ticks_per_line := match m with
      | .spectrum_48 => 224
      | .spectrum_128 => 228
    if t < cont_base ∨ cont_base + 192 * ticks_per_line ≤ t then 0
    else
      let u := (t - cont_base) % ticks_per_line
      if 128 ≤ u then 0
      else
        let k := u % 8
        if k = 7 then 0 else 6 - k

/-- The per-pixel colour translation exactly as the spec's claim words it:
`r = (c.red << 23) | (c.green << 15) | (c.blue << 7)`, then multiplied by
0xFF if the brightness bit is set, else by 0xCC. -/
def claim_translate_colour (c : Nat) : Nat :=
  ((c >>> 1 &&& 1) <<< 23 ||| (c >>> 2 &&& 1) <<< 15 ||| (c &&& 1) <<< 7) *
    (if c &&& brightness_mask ≠ 0 then 0xff else 0xcc)

/-- The per-pixel colour translation of the amended claim: each colour bit
is routed to the LOW bit of its byte lane, `r = (c.red << 16) |
(c.green << 8) | c.blue`, then multiplied by 0xFF if the brightness bit is
set, else by 0xCC, leaving each occupied byte lane at 0xFF or 0xCC (high
bit set). -/
def amended_translate_colour (c : Nat) : Nat :=
  ((c >>> 1 &&& 1) <<< 16 ||| (c >>> 2 &&& 1) <<< 8 ||| (c &&& 1)) *
    (if c &&& brightness_mask ≠ 0 then 0xff else 0xcc)

/-- A concrete machine state used to instantiate witness theorems. -/
def test_state : spectrum where
  model := spectrum_model.spectrum_48
  events := 0
  ticks_since_int := 0
  ticks_to_stop := 0
  fetches_to_stop := 0
  addr_bus_value := 0
  border_colour := 0
  int_suppressed := false
  int_after_ei_allowed := false
  trace_enabled := false
  rom_page := rom0
  ram_page := ram0
  ignore_7ffd_port_writes := false
  shadow_screen := false
  screen_chunks := fun _ _ => 0
  port_writes := []
  memory_marks := fun _ => 0
  mem := ⟨fun _ => 0⟩
  frame_counter := 0
  render_tick := 0
  latched_border_colour := 0
  latched_pixel_pattern := 0
  latched_colour_attrs := 0
  latched_pixel_pattern2 := 0
  latched_colour_attrs2 := 0
  flash_mask := 0
  pc := 0

/-- A machine state whose memory image holds the `reset()` byte stream. -/
def reset_image_state : spectrum := { test_state with mem := ⟨reset_byte⟩ }

/-- A machine state whose chunk buffer holds `0x20000000` everywhere
(leftmost pixel of every chunk: colour 2, plain red). -/
def chunk_state : spectrum :=
  { test_state with screen_chunks := fun _ _ => 0x20000000 }

/-! Projection and preservation lemmas for the atomic operations. -/

theorem on_tick_ticks_since_int (t : Nat) (s : spectrum) :
    (on_tick t s).ticks_since_int = s.ticks_since_int + t := by
  simp only [on_tick]; split_ifs <;> rfl

theorem on_tick_mem (t : Nat) (s : spectrum) : (on_tick t s).mem = s.mem := by
  simp only [on_tick]; split_ifs <;> rfl

theorem on_tick_border_colour (t : Nat) (s : spectrum) :
    (on_tick t s).border_colour = s.border_colour := by
  simp only [on_tick]; split_ifs <;> rfl

theorem on_tick_screen_chunks (t : Nat) (s : spectrum) :
    (on_tick t s).screen_chunks = s.screen_chunks := by
  simp only [on_tick]; split_ifs <;> rfl

theorem on_tick_render_tick (t : Nat) (s : spectrum) :
    (on_tick t s).render_tick = s.render_tick := by
  simp only [on_tick]; split_ifs <;> rfl

theorem on_tick_port_writes (t : Nat) (s : spectrum) :
    (on_tick t s).port_writes = s.port_writes := by
  simp only [on_tick]; split_ifs <;> rfl

theorem on_tick_rom_page (t : Nat) (s : spectrum) :
    (on_tick t s).rom_page = s.rom_page := by
  simp only [on_tick]; split_ifs <;> rfl

theorem on_tick_ram_page (t : Nat) (s : spectrum) :
    (on_tick t s).ram_page = s.ram_page := by
  simp only [on_tick]; split_ifs <;> rfl

theorem on_tick_shadow_screen (t : Nat) (s : spectrum) :
    (on_tick t s).shadow_screen = s.shadow_screen := by
  simp only [on_tick]; split_ifs <;> rfl

theorem on_tick_ignore_7ffd (t : Nat) (s : spectrum) :
    (on_tick t s).ignore_7ffd_port_writes = s.ignore_7ffd_port_writes := by
  simp only [on_tick]; split_ifs <;> rfl

theorem on_tick_model (t : Nat) (s : spectrum) : (on_tick t s).model = s.model := by
  simp only [on_tick]; split_ifs <;> rfl

theorem handle_contention_mem (s : spectrum) :
    (handle_contention s).mem = s.mem := by
  simp only [handle_contention]; split_ifs <;> simp [on_tick_mem]

theorem handle_contention_border_colour (s : spectrum) :
    (handle_contention s).border_colour = s.border_colour := by
  simp only [handle_contention]; split_ifs <;> simp [on_tick_border_colour]

theorem handle_contention_screen_chunks (s : spectrum) :
    (handle_contention s).screen_chunks = s.screen_chunks := by
  simp only [handle_contention]; split_ifs <;> simp [on_tick_screen_chunks]

theorem handle_contention_render_tick (s : spectrum) :
    (handle_contention s).render_tick = s.render_tick := by
  simp only [handle_contention]; split_ifs <;> simp [on_tick_render_tick]

theorem handle_contention_port_writes (s : spectrum) :
    (handle_contention s).port_writes = s.port_writes := by
  simp only [handle_contention]; split_ifs <;> simp [on_tick_port_writes]

theorem handle_contention_rom_page (s : spectrum) :
    (handle_contention s).rom_page = s.rom_page := by
  simp only [handle_contention]; split_ifs <;> simp [on_tick_rom_page]

theorem handle_contention_ram_page (s : spectrum) :
    (handle_contention s).ram_page = s.ram_page := by
  simp only [handle_contention]; split_ifs <;> simp [on_tick_ram_page]

theorem handle_contention_shadow_screen (s : spectrum) :
    (handle_contention s).shadow_screen = s.shadow_screen := by
  simp only [handle_contention]; split_ifs <;> simp [on_tick_shadow_screen]

theorem handle_contention_ignore_7ffd (s : spectrum) :
    (handle_contention s).ignore_7ffd_port_writes = s.ignore_7ffd_port_writes := by
  simp only [handle_contention]; split_ifs <;> simp [on_tick_ignore_7ffd]

theorem handle_contention_model (s : spectrum) :
    (handle_contention s).model = s.model := by
  simp only [handle_contention]; split_ifs <;> simp [on_tick_model]

theorem hmc_mem (a : Nat) (s : spectrum) :
    (handle_memory_contention a s).mem = s.mem := by
  simp only [handle_memory_contention]; split_ifs <;> simp [handle_contention_mem]

theorem hmc_border_colour (a : Nat) (s : spectrum) :
    (handle_memory_contention a s).border_colour = s.border_colour := by
  simp only [handle_memory_contention]
  split_ifs <;> simp [handle_contention_border_colour]

theorem hmc_screen_chunks (a : Nat) (s : spectrum) :
    (handle_memory_contention a s).screen_chunks = s.screen_chunks := by
  simp only [handle_memory_contention]
  split_ifs <;> simp [handle_contention_screen_chunks]

theorem hmc_render_tick (a : Nat) (s : spectrum) :
    (handle_memory_contention a s).render_tick = s.render_tick := by
  simp only [handle_memory_contention]
  split_ifs <;> simp [handle_contention_render_tick]

theorem hmc_rom_page (a : Nat) (s : spectrum) :
    (handle_memory_contention a s).rom_page = s.rom_page := by
  simp only [handle_memory_contention]; split_ifs <;> simp [handle_contention_rom_page]

theorem hmc_ram_page (a : Nat) (s : spectrum) :
    (handle_memory_contention a s).ram_page = s.ram_page := by
  simp only [handle_memory_contention]; split_ifs <;> simp [handle_contention_ram_page]

theorem hpc_border_colour (a : Nat) (s : spectrum) :
    (handle_port_contention a s).border_colour = s.border_colour := by
  simp only [handle_port_contention]
  split_ifs <;> simp [on_tick_border_colour, handle_contention_border_colour]

theorem hpc_screen_chunks (a : Nat) (s : spectrum) :
    (handle_port_contention a s).screen_chunks = s.screen_chunks := by
  simp only [handle_port_contention]
  split_ifs <;> simp [on_tick_screen_chunks, handle_contention_screen_chunks]

theorem hpc_port_writes (a : Nat) (s : spectrum) :
    (handle_port_contention a s).port_writes = s.port_writes := by
  simp only [handle_port_contention]
  split_ifs <;> simp [on_tick_port_writes, handle_contention_port_writes]

theorem hpc_rom_page (a : Nat) (s : spectrum) :
    (handle_port_contention a s).rom_page = s.rom_page := by
  simp only [handle_port_contention]
  split_ifs <;> simp [on_tick_rom_page, handle_contention_rom_page]

theorem hpc_ram_page (a : Nat) (s : spectrum) :
    (handle_port_contention a s).ram_page = s.ram_page := by
  simp only [handle_port_contention]
  split_ifs <;> simp [on_tick_ram_page, handle_contention_ram_page]

theorem hpc_shadow_screen (a : Nat) (s : spectrum) :
    (handle_port_contention a s).shadow_screen = s.shadow_screen := by
  simp only [handle_port_contention]
  split_ifs <;> simp [on_tick_shadow_screen, handle_contention_shadow_screen]

theorem hpc_ignore_7ffd (a : Nat) (s : spectrum) :
    (handle_port_contention a s).ignore_7ffd_port_writes =
      s.ignore_7ffd_port_writes := by
  simp only [handle_port_contention]
  split_ifs <;> simp [on_tick_ignore_7ffd, handle_contention_ignore_7ffd]

theorem on_write_screen_chunks (a n : Nat) (s : spectrum) :
    (on_write a n s).screen_chunks = s.screen_chunks := by
  simp only [on_write]; split_ifs <;> rfl

theorem on_write_border_colour (a n : Nat) (s : spectrum) :
    (on_write a n s).border_colour = s.border_colour := by
  simp only [on_write]; split_ifs <;> rfl

theorem on_write_mem (a n : Nat) (s : spectrum) :
    (on_write a n s).mem =
      if 0x4000 ≤ a then s.mem.write a n s.rom_page s.ram_page else s.mem := by
  simp only [on_write]; split_ifs <;> rfl

/-! Preservation lemmas for the renderer. -/

theorem do_latch_render_tick (fl pil : Nat) (s : spectrum) :
    (do_latch fl pil s).render_tick = s.render_tick := rfl

theorem do_latch_frame (fl pil : Nat) (s : spectrum) :
    (do_latch fl pil s).mem = s.mem ∧
    (do_latch fl pil s).border_colour = s.border_colour ∧
    (do_latch fl pil s).ticks_since_int = s.ticks_since_int ∧
    (do_latch fl pil s).port_writes = s.port_writes ∧
    (do_latch fl pil s).rom_page = s.rom_page ∧
    (do_latch fl pil s).ram_page = s.ram_page ∧
    (do_latch fl pil s).shadow_screen = s.shadow_screen ∧
    (do_latch fl pil s).ignore_7ffd_port_writes = s.ignore_7ffd_port_writes ∧
    (do_latch fl pil s).model = s.model :=
  ⟨rfl, rfl, rfl, rfl, rfl, rfl, rfl, rfl, rfl⟩

theorem render_screen_pixels_render_tick (fl pil : Nat) (s : spectrum) :
    (render_screen_pixels fl pil s).render_tick = s.render_tick + 1 := by
  simp only [render_screen_pixels]; split_ifs <;> rfl

theorem render_screen_pixels_frame (fl pil : Nat) (s : spectrum) :
    (render_screen_pixels fl pil s).mem = s.mem ∧
    (render_screen_pixels fl pil s).border_colour = s.border_colour ∧
    (render_screen_pixels fl pil s).ticks_since_int = s.ticks_since_int ∧
    (render_screen_pixels fl pil s).port_writes = s.port_writes ∧
    (render_screen_pixels fl pil s).rom_page = s.rom_page ∧
    (render_screen_pixels fl pil s).ram_page = s.ram_page ∧
    (render_screen_pixels fl pil s).shadow_screen = s.shadow_screen ∧
    (render_screen_pixels fl pil s).ignore_7ffd_port_writes =
      s.ignore_7ffd_port_writes ∧
    (render_screen_pixels fl pil s).model = s.model := by
  simp only [render_screen_pixels]
  split_ifs <;> exact ⟨rfl, rfl, rfl, rfl, rfl, rfl, rfl, rfl, rfl⟩

theorem render_border_pixels_render_tick (fl pil : Nat) (s : spectrum) :
    (render_border_pixels fl pil s).render_tick = s.render_tick + 1 := by
  simp only [render_border_pixels]; split_ifs <;> rfl

theorem render_border_pixels_frame (fl pil : Nat) (s : spectrum) :
    (render_border_pixels fl pil s).mem = s.mem ∧
    (render_border_pixels fl pil s).border_colour = s.border_colour ∧
    (render_border_pixels fl pil s).ticks_since_int = s.ticks_since_int ∧
    (render_border_pixels fl pil s).port_writes = s.port_writes ∧
    (render_border_pixels fl pil s).rom_page = s.rom_page ∧
    (render_border_pixels fl pil s).ram_page = s.ram_page ∧
    (render_border_pixels fl pil s).shadow_screen = s.shadow_screen ∧
    (render_border_pixels fl pil s).ignore_7ffd_port_writes =
      s.ignore_7ffd_port_writes ∧
    (render_border_pixels fl pil s).model = s.model := by
  simp only [render_border_pixels]
  split_ifs <;> exact ⟨rfl, rfl, rfl, rfl, rfl, rfl, rfl, rfl, rfl⟩

theorem render_step_render_tick (s : spectrum) :
    (render_step s).render_tick = s.render_tick + 1 := by
  simp only [render_step]
  split_ifs <;>
    simp [render_screen_pixels_render_tick, render_border_pixels_render_tick,
          do_latch_render_tick]

theorem render_step_frame (s : spectrum) :
    (render_step s).mem = s.mem ∧
    (render_step s).border_colour = s.border_colour ∧
    (render_step s).ticks_since_int = s.ticks_since_int ∧
    (render_step s).port_writes = s.port_writes ∧
    (render_step s).rom_page = s.rom_page ∧
    (render_step s).ram_page = s.ram_page ∧
    (render_step s).shadow_screen = s.shadow_screen ∧
    (render_step s).ignore_7ffd_port_writes = s.ignore_7ffd_port_writes ∧
    (render_step s).model = s.model := by
  simp only [render_step]
  split_ifs <;>
    simp [render_screen_pixels_frame, render_border_pixels_frame, do_latch_frame]

theorem render_loop_frame : ∀ (fuel e : Nat) (s : spectrum),
    (render_loop fuel e s).mem = s.mem ∧
    (render_loop fuel e s).border_colour = s.border_colour ∧
    (render_loop fuel e s).ticks_since_int = s.ticks_since_int ∧
    (render_loop fuel e s).port_writes = s.port_writes ∧
    (render_loop fuel e s).rom_page = s.rom_page ∧
    (render_loop fuel e s).ram_page = s.ram_page ∧
    (render_loop fuel e s).shadow_screen = s.shadow_screen ∧
    (render_loop fuel e s).ignore_7ffd_port_writes = s.ignore_7ffd_port_writes ∧
    (render_loop fuel e s).model = s.model
  | 0, _, _ => ⟨rfl, rfl, rfl, rfl, rfl, rfl, rfl, rfl, rfl⟩
  | fuel + 1, e, s => by
    simp only [render_loop]
    split_ifs
    · have ih := render_loop_frame fuel e (render_step s)
      have hs := render_step_frame s
      exact ⟨ih.1.trans hs.1, ih.2.1.trans hs.2.1, ih.2.2.1.trans hs.2.2.1,
             ih.2.2.2.1.trans hs.2.2.2.1, ih.2.2.2.2.1.trans hs.2.2.2.2.1,
             ih.2.2.2.2.2.1.trans hs.2.2.2.2.2.1,
             ih.2.2.2.2.2.2.1.trans hs.2.2.2.2.2.2.1,
             ih.2.2.2.2.2.2.2.1.trans hs.2.2.2.2.2.2.2.1,
             ih.2.2.2.2.2.2.2.2.trans hs.2.2.2.2.2.2.2.2⟩
    · exact ⟨rfl, rfl, rfl, rfl, rfl, rfl, rfl, rfl, rfl⟩

theorem render_loop_render_tick : ∀ (fuel e : Nat) (s : spectrum),
    e - s.render_tick ≤ fuel →
    (render_loop fuel e s).render_tick = max e s.render_tick
  | 0, e, s => by
    intro h
    simp only [render_loop]
    omega
  | fuel + 1, e, s => by
    intro h
    simp only [render_loop]
    split_ifs with hlt
    · have step := render_step_render_tick s
      have ih := render_loop_render_tick fuel e (render_step s) (by omega)
      rw [ih, step]
      omega
    · omega

theorem render_to_frame (e : Nat) (s : spectrum) :
    (render_screen_to_tick e s).mem = s.mem ∧
    (render_screen_to_tick e s).border_colour = s.border_colour ∧
    (render_screen_to_tick e s).ticks_since_int = s.ticks_since_int ∧
    (render_screen_to_tick e s).port_writes = s.port_writes ∧
    (render_screen_to_tick e s).rom_page = s.rom_page ∧
    (render_screen_to_tick e s).ram_page = s.ram_page ∧
    (render_screen_to_tick e s).shadow_screen = s.shadow_screen ∧
    (render_screen_to_tick e s).ignore_7ffd_port_writes =
      s.ignore_7ffd_port_writes ∧
    (render_screen_to_tick e s).model = s.model :=
  render_loop_frame (e - s.render_tick) e s

/-- The render loop runs to completion: afterwards the beam has reached
the requested tick (the step budget of the fuel-indexed embedding is
exactly sufficient). -/
theorem render_to_render_tick (e : Nat) (s : spectrum) :
    (render_screen_to_tick e s).render_tick = max e s.render_tick :=
  render_loop_render_tick (e - s.render_tick) e s (Nat.le_refl _)

/-! Stage lemmas for `on_output_cycle`. -/

theorem oc_border_screen_chunks (addr n : Nat) (s : spectrum) :
    (oc_border addr n s).screen_chunks =
      if addr &&& 0xff = 0xfe then
        (render_screen_to_tick (s.ticks_since_int + 1) s).screen_chunks
      else s.screen_chunks := by
  simp only [oc_border]; split_ifs <;> rfl

theorem oc_border_border_colour (addr n : Nat) (s : spectrum) :
    (oc_border addr n s).border_colour =
      if addr &&& 0xff = 0xfe then n &&& 0x7 else s.border_colour := by
  simp only [oc_border]; split_ifs <;> rfl

theorem oc_border_frame (addr n : Nat) (s : spectrum) :
    (oc_border addr n s).mem = s.mem ∧
    (oc_border addr n s).ticks_since_int = s.ticks_since_int ∧
    (oc_border addr n s).port_writes = s.port_writes ∧
    (oc_border addr n s).rom_page = s.rom_page ∧
    (oc_border addr n s).ram_page = s.ram_page ∧
    (oc_border addr n s).shadow_screen = s.shadow_screen ∧
    (oc_border addr n s).ignore_7ffd_port_writes = s.ignore_7ffd_port_writes ∧
    (oc_border addr n s).model = s.model := by
  obtain ⟨h1, h2, h3, h4, h5, h6, h7, h8, h9⟩ :=
    render_to_frame (s.ticks_since_int + 1) s
  simp only [oc_border]
  split_ifs <;> exact ⟨by simp [h1], by simp [h3], by simp [h4], by simp [h5],
    by simp [h6], by simp [h7], by simp [h8], by simp [h9]⟩

theorem oc_paging_mem (addr n : Nat) (s : spectrum) :
    (oc_paging addr n s).mem = s.mem := by
  simp only [oc_paging]; split_ifs <;> rfl

theorem oc_paging_border_colour (addr n : Nat) (s : spectrum) :
    (oc_paging addr n s).border_colour = s.border_colour := by
  simp only [oc_paging]; split_ifs <;> rfl

theorem oc_paging_ticks_since_int (addr n : Nat) (s : spectrum) :
    (oc_paging addr n s).ticks_since_int = s.ticks_since_int := by
  simp only [oc_paging]; split_ifs <;> rfl

theorem oc_paging_port_writes (addr n : Nat) (s : spectrum) :
    (oc_paging addr n s).port_writes = s.port_writes := by
  simp only [oc_paging]; split_ifs <;> rfl

theorem oc_paging_screen_chunks (addr n : Nat) (s : spectrum) :
    (oc_paging addr n s).screen_chunks = s.screen_chunks := by
  simp only [oc_paging]; split_ifs <;> rfl

theorem oc_paging_model (addr n : Nat) (s : spectrum) :
    (oc_paging addr n s).model = s.model := by
  simp only [oc_paging]; split_ifs <;> rfl

theorem oc_journal_eq (addr n t : Nat) (s : spectrum) :
    oc_journal addr n t s =
      { s with port_writes :=
          if s.port_writes.length < max_num_port_writes then
            s.port_writes ++ [pw_encode addr n t]
          else s.port_writes } := by
  simp only [oc_journal]; split_ifs <;> rfl

/-- C1. Render-before-write discipline: `on_write_cycle` leaves on the
screen exactly the chunks produced by advancing the renderer to
`current_tick + 1` on the pre-write state, the renderer call reads (and
does not change) the pre-change memory image and border colour, and
advances the beam to at least `current_tick + 1`; the byte then lands in
memory computed from the pre-write state.  For an `on_output_cycle` whose
port low byte is 0xFE, the final screen chunks are likewise those rendered
from the pre-change state, and only then does `border_colour` become
`n & 7`. -/
theorem c1_render_before_write (s : spectrum) (addr n : Nat) :
    (on_write_cycle addr n s).screen_chunks =
      (render_screen_to_tick (s.ticks_since_int + 1) s).screen_chunks ∧
    (render_screen_to_tick (s.ticks_since_int + 1) s).mem = s.mem ∧
    (render_screen_to_tick (s.ticks_since_int + 1) s).border_colour =
      s.border_colour ∧
    (render_screen_to_tick (s.ticks_since_int + 1) s).render_tick =
      max (s.ticks_since_int + 1) s.render_tick ∧
    (on_write_cycle addr n s).mem = (on_write addr n s).mem ∧
    (addr &&& 0xff = 0xfe →
      (on_output_cycle addr n s).screen_chunks =
        (render_screen_to_tick (s.ticks_since_int + 1) s).screen_chunks ∧
      (on_output_cycle addr n s).border_colour = n &&& 0x7) := by
  obtain ⟨hmem, hbord, htsi, hpw, hrom, hram, hshad, hlock, hmodel⟩ :=
    render_to_frame (s.ticks_since_int + 1) s
  refine ⟨?_, hmem, hbord, render_to_render_tick _ _, ?_, ?_⟩
  · simp only [on_write_cycle, base_on_write_cycle, on_tick_screen_chunks,
      on_write_screen_chunks, hmc_screen_chunks]
  · simp only [on_write_cycle, base_on_write_cycle, on_tick_mem, on_write_mem,
      hmc_mem, hmc_rom_page, hmc_ram_page, hmem, hrom, hram]
  · intro h
    constructor
    · simp only [on_output_cycle, hpc_screen_chunks, oc_journal_eq,
        oc_paging_screen_chunks, oc_border_screen_chunks, if_pos h]
    · simp only [on_output_cycle, hpc_border_colour, oc_journal_eq,
        oc_paging_border_colour, oc_border_border_colour, if_pos h]

/-- Witness for C1 at a concrete state and a 0xFE port write. -/
theorem c1_witness :
    (on_write_cycle 0xfe 2 test_state).screen_chunks =
      (render_screen_to_tick (test_state.ticks_since_int + 1)
        test_state).screen_chunks ∧
    (on_output_cycle 0xfe 2 test_state).screen_chunks =
      (render_screen_to_tick (test_state.ticks_since_int + 1)
        test_state).screen_chunks ∧
    (on_output_cycle 0xfe 2 test_state).border_colour = 2 &&& 0x7 := by
  have h := c1_render_before_write test_state 0xfe 2
  have h6 := h.2.2.2.2.2 (by decide)
  exact ⟨h.1, h6.1, h6.2⟩

/-- C2. Contention delay: the amount added to `ticks_since_int` by a
memory access at address `A` equals the spec's delay table
(`claim_cont_delay`): zero outside `[0x4000, 0x8000)`, zero outside the
contention window starting at the model's contention base, zero in the
horizontal blanking part of a line, and otherwise `0` for `k = 7` and
`6 - k` for `k = u mod 8`. -/
theorem c2_contention_delay (s : spectrum) (A : Nat) :
    (handle_memory_contention A s).ticks_since_int =
      s.ticks_since_int + claim_cont_delay s.model A s.ticks_since_int := by
  simp only [handle_memory_contention, handle_contention, claim_cont_delay,
    get_cont_base, get_ticks_per_line, screen_height, screen_width]
  cases hm : s.model <;>
    (dsimp only
     split_ifs <;> (try simp only [on_tick_ticks_since_int]) <;> omega)

/-- Single `on_output_cycle` with the paging lock set: the paging
registers and the lock are unchanged. -/
theorem on_output_cycle_locked (addr n : Nat) (s : spectrum)
    (h : s.ignore_7ffd_port_writes = true) :
    (on_output_cycle addr n s).rom_page = s.rom_page ∧
    (on_output_cycle addr n s).ram_page = s.ram_page ∧
    (on_output_cycle addr n s).shadow_screen = s.shadow_screen ∧
    (on_output_cycle addr n s).ignore_7ffd_port_writes = true := by
  obtain ⟨b1, b2, b3, b4, b5, b6, b7, b8⟩ := oc_border_frame addr n s
  have hcond : ¬((oc_border addr n s).model = spectrum_model.spectrum_128 ∧
      addr &&& 0x8002 = 0 ∧ ¬(oc_border addr n s).ignore_7ffd_port_writes) := by
    simp [b7, h]
  have hpag : oc_paging addr n (oc_border addr n s) = oc_border addr n s := by
    simp only [oc_paging]
    rw [if_neg hcond]
  simp only [on_output_cycle, hpc_rom_page, hpc_ram_page, hpc_shadow_screen,
    hpc_ignore_7ffd, oc_journal_eq, hpag, b4, b5, b6, b7, h]
  simp

/-- Paging writes folded over a locked machine leave the paging state
unchanged. -/
theorem locked_fold (ws : List (Nat × Nat)) : ∀ s : spectrum,
    s.ignore_7ffd_port_writes = true →
    ((ws.foldl (fun st w => on_output_cycle w.1 w.2 st) s).rom_page =
       s.rom_page ∧
     (ws.foldl (fun st w => on_output_cycle w.1 w.2 st) s).ram_page =
       s.ram_page ∧
     (ws.foldl (fun st w => on_output_cycle w.1 w.2 st) s).shadow_screen =
       s.shadow_screen ∧
     (ws.foldl (fun st w => on_output_cycle w.1 w.2 st) s).ignore_7ffd_port_writes =
       true) := by
  induction ws with
  | nil => exact fun s h => ⟨rfl, rfl, rfl, h⟩
  | cons w ws ih =>
    intro s h
    obtain ⟨h1, h2, h3, h4⟩ := on_output_cycle_locked w.1 w.2 s h
    obtain ⟨g1, g2, g3, g4⟩ := ih (on_output_cycle w.1 w.2 s) h4
    exact ⟨g1.trans h1, g2.trans h2, g3.trans h3, g4⟩

/-- C3. 128K paging and lock: on the 128K model a port write with
`(addr & 0x8002) == 0` while the lock is clear sets `ram_page`,
`rom_page`, `shadow_screen` and the lock from the written byte; once the
lock is set, any sequence of subsequent port writes leaves `rom_page`,
`ram_page` and `shadow_screen` unchanged (and the lock set). -/
theorem c3_paging_and_lock (s : spectrum) (addr n : Nat)
    (hm : s.model = spectrum_model.spectrum_128) :
    (addr &&& 0x8002 = 0 → s.ignore_7ffd_port_writes = false →
      (on_output_cycle addr n s).ram_page = get_ram_page (n &&& 7) ∧
      (on_output_cycle addr n s).rom_page = get_rom_page (n >>> 4 &&& 1) ∧
      ((on_output_cycle addr n s).shadow_screen = true ↔ n &&& 8 ≠ 0) ∧
      ((on_output_cycle addr n s).ignore_7ffd_port_writes = true ↔
        n &&& 0x20 ≠ 0)) ∧
    (s.ignore_7ffd_port_writes = true →
      ∀ ws : List (Nat × Nat),
        (ws.foldl (fun st w => on_output_cycle w.1 w.2 st) s).rom_page =
          s.rom_page ∧
        (ws.foldl (fun st w => on_output_cycle w.1 w.2 st) s).ram_page =
          s.ram_page ∧
        (ws.foldl (fun st w => on_output_cycle w.1 w.2 st) s).shadow_screen =
          s.shadow_screen ∧
        (ws.foldl (fun st w => on_output_cycle w.1 w.2 st) s).ignore_7ffd_port_writes =
          true) := by
  constructor
  · intro ha hl
    obtain ⟨b1, b2, b3, b4, b5, b6, b7, b8⟩ := oc_border_frame addr n s
    have hcond : (oc_border addr n s).model = spectrum_model.spectrum_128 ∧
        addr &&& 0x8002 = 0 ∧ ¬(oc_border addr n s).ignore_7ffd_port_writes := by
      simp [b7, b8, hm, ha, hl]
    have hpag : oc_paging addr n (oc_border addr n s) =
        { oc_border addr n s with
            ram_page := get_ram_page (n &&& 7),
            rom_page := get_rom_page (n >>> 4 &&& 1),
            ignore_7ffd_port_writes := n &&& 0x20 ≠ 0,
            shadow_screen := n &&& 8 ≠ 0 } := by
      simp only [oc_paging]
      rw [if_pos hcond]
    simp only [on_output_cycle, hpc_rom_page, hpc_ram_page, hpc_shadow_screen,
      hpc_ignore_7ffd, oc_journal_eq, hpag]
    simp
  · intro h ws
    exact locked_fold ws s h

/-- Witness for C3: writing 0xFF to port 0x7FFD on an unlocked 128K
machine selects RAM 7, ROM 1, the shadow screen and the lock; with the
lock set, a subsequent write of 0x00 changes nothing. -/
theorem c3_witness :
    ((on_output_cycle 0x7ffd 0xff
        { test_state with model := spectrum_model.spectrum_128 }).ram_page =
      get_ram_page (0xff &&& 7) ∧
     (on_output_cycle 0x7ffd 0xff
        { test_state with model := spectrum_model.spectrum_128 }).rom_page =
      get_rom_page (0xff >>> 4 &&& 1) ∧
     ((on_output_cycle 0x7ffd 0xff
        { test_state with model := spectrum_model.spectrum_128 }).shadow_screen =
        true ↔ 0xff &&& 8 ≠ 0) ∧
     ((on_output_cycle 0x7ffd 0xff
        { test_state with model := spectrum_model.spectrum_128 }).ignore_7ffd_port_writes =
        true ↔ 0xff &&& 0x20 ≠ 0)) ∧
    ([(0x7ffd, 0)].foldl (fun st w => on_output_cycle w.1 w.2 st)
        { test_state with model := spectrum_model.spectrum_128,
                          ignore_7ffd_port_writes := true }).rom_page =
      ({ test_state with model := spectrum_model.spectrum_128,
                         ignore_7ffd_port_writes := true } : spectrum).rom_page := by
  constructor
  · exact (c3_paging_and_lock
      { test_state with model := spectrum_model.spectrum_128 } 0x7ffd 0xff
      rfl).1 (by decide) rfl
  · exact ((c3_paging_and_lock
      { test_state with model := spectrum_model.spectrum_128,
                        ignore_7ffd_port_writes := true } 0x7ffd 0xff
      rfl).2 rfl [(0x7ffd, 0)]).1

/-- C4. Frame-boundary normalization: after `start_new_frame()`,
`render_tick = 0`, the port-write journal is empty and `ticks_since_int`
equals its previous value modulo `ticks_per_frame`; the entry part of
`run()` therefore establishes `ticks_since_int < ticks_per_frame` at every
frame boundary. -/
theorem c4_frame_normalization (s : spectrum) :
    (start_new_frame s).render_tick = 0 ∧
    (start_new_frame s).port_writes.length = 0 ∧
    (start_new_frame s).ticks_since_int =
      s.ticks_since_int % get_ticks_per_frame s.model ∧
    (run_entry s).model = s.model ∧
    (run_entry s).ticks_since_int < get_ticks_per_frame s.model := by
  have hsf : (start_new_frame s).render_tick = 0 ∧
      (start_new_frame s).port_writes.length = 0 ∧
      (start_new_frame s).ticks_since_int =
        s.ticks_since_int % get_ticks_per_frame s.model ∧
      (start_new_frame s).model = s.model := by
    simp only [start_new_frame]
    split_ifs <;> exact ⟨rfl, rfl, rfl, rfl⟩
  have hpos : 0 < get_ticks_per_frame s.model := by
    cases s.model <;> decide
  refine ⟨hsf.1, hsf.2.1, hsf.2.2.1, ?_, ?_⟩ <;>
    simp only [run_entry] <;> split_ifs with h
  · exact hsf.2.2.2
  · rfl
  · exact hsf.2.2.1.trans_lt (Nat.mod_lt _ hpos)
  · omega

/-- C5, amended. ROM writes are ignored: for `a ≥ 0x4000` a write is
read back (`on_read` after `on_write` returns the written byte); for
`a < 0x4000` the write is a complete no-op, leaving the machine — and in
particular the whole memory image — unchanged, so every subsequent read
returns the pre-existing byte. -/
theorem c5_rom_writes_ignored (s : spectrum) (a v : Nat)
    (ha : a < 0x10000) (hv : v < 0x100) :
    (0x4000 ≤ a → on_read a (on_write a v s) = v) ∧
    (a < 0x4000 → on_write a v s = s) := by
  constructor
  · intro h
    simp only [on_write, if_pos h]
    simp [on_read, memory_image.read, memory_image.write]
    omega
  · intro h
    simp only [on_write]
    rw [if_neg (by omega)]

/-- Counterexample for C5 as stated: on the freshly reset memory image the
ROM byte at address 0 is 0x01, so writing 0x01 to address 0 and reading it
back returns the written value even though `0 < 0x4000` — the
"returns `v` iff `a ≥ 0x4000`" biconditional fails. -/
theorem c5_counterexample :
    ¬(on_read 0 (on_write 0 1 reset_image_state) = 1 ↔ 0x4000 ≤ 0) := by
  decide

/-- Witness for C5 (amended) at concrete inputs. -/
theorem c5_witness :
    (on_read 0x8000 (on_write 0x8000 0x55 reset_image_state) = 0x55) ∧
    on_write 0 1 reset_image_state = reset_image_state := by
  have h1 := c5_rom_writes_ignored reset_image_state 0x8000 0x55
    (by decide) (by decide)
  have h2 := c5_rom_writes_ignored reset_image_state 0 1 (by decide) (by decide)
  exact ⟨h1.1 (by decide), h2.2 (by decide)⟩

/-- C7. Active-interrupt window: the guard of the `run()` loop
(`previous_tick = ticks_since_int - 1` in unsigned arithmetic, compared
against `ticks_per_active_int = 32`) holds exactly when interrupts are not
suppressed and `1 ≤ ticks_since_int ≤ 32` — i.e. when the last tick of the
previous instruction fell inside the 32-tick active ~INT window; at the
boundary value `ticks_since_int = 0` the unsigned `- 1` wraps around and
the decoder's `handle_active_int` is not invoked.  The loop body invokes
`handle_active_int` (`g`) exactly under this guard. -/
theorem c7_active_int_window (s : spectrum)
    (h : s.ticks_since_int < 2 ^ 64) :
    (active_int_due s ↔
      s.int_suppressed = false ∧ 1 ≤ s.ticks_since_int ∧
        s.ticks_since_int ≤ ticks_per_active_int) ∧
    (∀ f g, active_int_due s → loop_body f g s = on_step f (g s)) ∧
    (∀ f g, ¬active_int_due s → loop_body f g s = on_step f s) := by
  refine ⟨?_, ?_, ?_⟩
  · simp only [active_int_due, ticks_per_active_int, Bool.not_eq_true]
    constructor
    · rintro ⟨h1, h2⟩
      exact ⟨h1, by omega, by omega⟩
    · rintro ⟨h1, h2, h3⟩
      exact ⟨h1, by omega⟩
  · intro f g hd
    simp only [loop_body, if_pos hd]
  · intro f g hd
    simp only [loop_body, if_neg hd]

/-- Witness for C7 at `ticks_since_int = 0`: the guard does not fire. -/
theorem c7_witness :
    (active_int_due test_state ↔
      test_state.int_suppressed = false ∧ 1 ≤ test_state.ticks_since_int ∧
        test_state.ticks_since_int ≤ ticks_per_active_int) ∧
    loop_body id id test_state = on_step id test_state := by
  have h := c7_active_int_window test_state (by decide)
  exact ⟨h.1, h.2.2 id id (by decide)⟩

theorem start_new_frame_events_comm (s : spectrum) (e : Nat) :
    start_new_frame { s with events := e } =
      { start_new_frame s with events := e } := by
  simp only [start_new_frame]
  split_ifs <;> rfl

/-- C9. The events mask returned by `run()` and the state it produces
are independent of the pending events at entry: `run()` resets `events`
before executing anything, so two entry states differing only in `events`
yield identical results; in particular a `machine_stopped` bit latched by
`stop()` between two `run()` calls is discarded. -/
theorem c9_run_events_independent (f g : spectrum → spectrum) (fuel : Nat)
    (s : spectrum) (e1 e2 : Nat) :
    run f g fuel { s with events := e1 } = run f g fuel { s with events := e2 } ∧
    run f g fuel (stop s) = run f g fuel s := by
  have key : ∀ e, run_entry { s with events := e } = run_entry s := by
    intro e
    simp only [run_entry]
    split_ifs with h
    · rw [start_new_frame_events_comm]
    · rfl
  have key2 : run_entry (stop s) = run_entry s := by
    have := key (s.events ||| machine_stopped)
    simpa [stop] using this
  constructor
  · simp only [run, key]
  · simp only [run, key2]

/-- C10. Every `on_step()` sets the visited-instruction mark (bit 7)
on the marks-table entry for the current PC before handing the state to
the decoder; the update is a bitwise OR into the byte, preserving all
other mark bits and all other table entries, and it happens whether or not
tracing is enabled (the embedding of `trace_state` has no machine-state
effect). -/
theorem c10_on_step_marks (f : spectrum → spectrum) (s : spectrum) :
    on_step f s = f (on_step_pre s) ∧
    (on_step_pre s).memory_marks (s.pc % 65536) =
      (s.memory_marks (s.pc % 65536) ||| visited_instr_mark) % 256 ∧
    Nat.testBit ((on_step_pre s).memory_marks (s.pc % 65536)) 7 = true ∧
    (∀ a, a ≠ s.pc % 65536 →
      (on_step_pre s).memory_marks a = s.memory_marks a) ∧
    (on_step_pre s).mem = s.mem ∧ (on_step_pre s).pc = s.pc := by
  refine ⟨rfl, ?_, ?_, ?_, rfl, rfl⟩
  · simp [on_step_pre, mark_addr]
  · have h : (on_step_pre s).memory_marks (s.pc % 65536) =
        (s.memory_marks (s.pc % 65536) ||| visited_instr_mark) % 256 := by
      simp [on_step_pre, mark_addr]
    rw [h]
    have h256 : (256 : Nat) = 2 ^ 8 := by norm_num
    rw [h256, Nat.testBit_mod_two_pow]
    simp [visited_instr_mark]
    exact Or.inr (by decide)
  · intro a haneq
    simp only [on_step_pre, mark_addr]
    rw [if_neg haneq]

/-- Witness for C10 at a concrete state with pre-existing mark bits. -/
theorem c10_witness :
    (on_step_pre { test_state with memory_marks := fun _ => 1, pc := 0x1234
      }).memory_marks (0x1234 % 65536) =
      ((1 : Nat) ||| visited_instr_mark) % 256 ∧
    (on_step_pre { test_state with memory_marks := fun _ => 1, pc := 0x1234
      }).memory_marks 0 = 1 := by
  have h := c10_on_step_marks id
    { test_state with memory_marks := fun _ => 1, pc := 0x1234 }
  exact ⟨h.2.1, h.2.2.2.1 0 (by decide)⟩

theorem translate_colour_amended_aux :
    ∀ c < 16, translate_colour c = amended_translate_colour c := by decide

/-- Counterexample for C8 as stated: the claim's formula
`(c.red << 23) | (c.green << 15) | (c.blue << 7)` scaled by 0xCC gives
`0x66000000` for the plain-red pixel `c = 2`, but `get_frame_pixels`
produces `0xCC0000`. -/
theorem c8_counterexample :
    get_frame_pixels chunk_state 0 ≠
      claim_translate_colour (chunk_state.screen_chunks 0 0 >>> 28 &&& 0xf) := by
  decide

/-- C8, amended. `get_frame_pixels` is a pure function of the chunk
buffer: the pixel at flat index `p` is obtained from the corresponding
4-bit pixel `c` of the chunk (leftmost pixel in the most significant
bits, chunks in row-major order) by routing each colour bit to the low
bit of its byte lane — `r = (c.red << 16) | (c.green << 8) | c.blue` —
and multiplying by 0xFF if the brightness bit of `c` is set, else by
0xCC, which leaves each occupied byte lane with its high bit set; states
with equal chunk buffers produce identical images. -/
theorem c8_frame_pixels (s : spectrum) (p : Nat) :
    (get_frame_pixels s p =
      amended_translate_colour
        (s.screen_chunks (p / frame_width) (p % frame_width / pixels_per_frame_chunk) >>>
          ((7 - p % frame_width % pixels_per_frame_chunk) * 4) &&& 0xf)) ∧
    (∀ s2 : spectrum, s.screen_chunks = s2.screen_chunks →
      get_frame_pixels s = get_frame_pixels s2) := by
  constructor
  · have hb : s.screen_chunks (p / frame_width)
        (p % frame_width / pixels_per_frame_chunk) >>>
          ((7 - p % frame_width % pixels_per_frame_chunk) * 4) &&& 0xf < 16 := by
      have := Nat.and_le_right
        (n := s.screen_chunks (p / frame_width)
          (p % frame_width / pixels_per_frame_chunk) >>>
            ((7 - p % frame_width % pixels_per_frame_chunk) * 4)) (m := 0xf)
      omega
    have := translate_colour_amended_aux _ hb
    simpa [get_frame_pixels] using this
  · intro s2 h
    funext q
    simp only [get_frame_pixels, h]

/-- Witness for C8 (amended) at a concrete chunk buffer. -/
theorem c8_witness :
    get_frame_pixels chunk_state 0 =
      amended_translate_colour
        (chunk_state.screen_chunks (0 / frame_width)
          (0 % frame_width / pixels_per_frame_chunk) >>>
            ((7 - 0 % frame_width % pixels_per_frame_chunk) * 4) &&& 0xf) ∧
    get_frame_pixels chunk_state = get_frame_pixels chunk_state := by
  have h := c8_frame_pixels chunk_state 0
  exact ⟨h.1, h.2 chunk_state rfl⟩

/-! Journal-independence (frame) lemmas: no operation other than the
journal append reads or writes `port_writes`. -/

theorem on_tick_pw_comm (t : Nat) (s : spectrum) (l : List Nat) :
    on_tick t { s with port_writes := l } = { on_tick t s with port_writes := l } := by
  simp only [on_tick]
  split_ifs <;> rfl

theorem handle_contention_pw_comm (s : spectrum) (l : List Nat) :
    handle_contention { s with port_writes := l } =
      { handle_contention s with port_writes := l } := by
  simp only [handle_contention]
  split_ifs <;> simp [on_tick_pw_comm]

theorem hpc_pw_comm (a : Nat) (s : spectrum) (l : List Nat) :
    handle_port_contention a { s with port_writes := l } =
      { handle_port_contention a s with port_writes := l } := by
  simp only [handle_port_contention]
  split_ifs <;> simp [on_tick_pw_comm, handle_contention_pw_comm]

theorem do_latch_pw_comm (fl pil : Nat) (s : spectrum) (l : List Nat) :
    do_latch fl pil { s with port_writes := l } =
      { do_latch fl pil s with port_writes := l } := rfl

theorem render_screen_pixels_pw_comm (fl pil : Nat) (s : spectrum) (l : List Nat) :
    render_screen_pixels fl pil { s with port_writes := l } =
      { render_screen_pixels fl pil s with port_writes := l } := by
  simp only [render_screen_pixels]
  split_ifs <;> rfl

theorem render_border_pixels_pw_comm (fl pil : Nat) (s : spectrum) (l : List Nat) :
    render_border_pixels fl pil { s with port_writes := l } =
      { render_border_pixels fl pil s with port_writes := l } := by
  simp only [render_border_pixels]
  split_ifs <;> rfl

theorem render_step_pw_comm (s : spectrum) (l : List Nat) :
    render_step { s with port_writes := l } =
      { render_step s with port_writes := l } := by
  simp only [render_step]
  split_ifs <;>
    simp [do_latch_pw_comm, render_screen_pixels_pw_comm,
          render_border_pixels_pw_comm]

theorem render_loop_pw_comm : ∀ (fuel e : Nat) (s : spectrum) (l : List Nat),
    render_loop fuel e { s with port_writes := l } =
      { render_loop fuel e s with port_writes := l }
  | 0, _, _, _ => rfl
  | fuel + 1, e, s, l => by
    simp only [render_loop]
    split_ifs
    · rw [render_step_pw_comm, render_loop_pw_comm fuel e (render_step s) l]
    · rfl

theorem render_to_pw_comm (e : Nat) (s : spectrum) (l : List Nat) :
    render_screen_to_tick e { s with port_writes := l } =
      { render_screen_to_tick e s with port_writes := l } :=
  render_loop_pw_comm (e - s.render_tick) e s l

theorem oc_border_pw_comm (addr n : Nat) (s : spectrum) (l : List Nat) :
    oc_border addr n { s with port_writes := l } =
      { oc_border addr n s with port_writes := l } := by
  simp only [oc_border]
  split_ifs
  · rw [show ({ s with port_writes := l } : spectrum).ticks_since_int =
        s.ticks_since_int from rfl, render_to_pw_comm]
  · rfl

theorem oc_paging_pw_comm (addr n : Nat) (s : spectrum) (l : List Nat) :
    oc_paging addr n { s with port_writes := l } =
      { oc_paging addr n s with port_writes := l } := by
  simp only [oc_paging]
  split_ifs <;> rfl

/-- C6. Port-write journal bound and overflow: the capacity is
`ceil(max_ticks_per_frame / 11) = 6447` entries; every `on_output_cycle`
appends exactly one packed `(addr, value, tick)` entry at the end of the
journal iff the current count is strictly below the capacity, and drops
it otherwise; whether or not the entry is dropped, every other component
of the machine state is updated exactly the same way (erasing the journal
from the results of runs started with different journal contents yields
identical states, so no event is raised by the drop); and the journal is
cleared at each frame start. -/
theorem c6_port_write_journal :
    max_num_port_writes = 6447 ∧
    (∀ (s : spectrum) (addr n : Nat),
      (on_output_cycle addr n s).port_writes =
        if s.port_writes.length < max_num_port_writes then
          s.port_writes ++ [pw_encode addr n s.ticks_since_int]
        else s.port_writes) ∧
    (∀ (s : spectrum) (addr n : Nat) (l : List Nat),
      { on_output_cycle addr n { s with port_writes := l } with
          port_writes := ([] : List Nat) } =
        { on_output_cycle addr n s with port_writes := ([] : List Nat) }) ∧
    (∀ s : spectrum, (start_new_frame s).port_writes = []) := by
  refine ⟨by decide, ?_, ?_, ?_⟩
  · intro s addr n
    obtain ⟨b1, b2, b3, b4, b5, b6, b7, b8⟩ := oc_border_frame addr n s
    simp only [on_output_cycle, hpc_port_writes, oc_journal_eq,
      oc_paging_port_writes, b3]
  · intro s addr n l
    simp only [on_output_cycle, oc_border_pw_comm, oc_paging_pw_comm,
      oc_journal_eq, hpc_pw_comm]
  · intro s
    simp [start_new_frame]

end zx
